import Mathlib

/-!
Verification development for the medialib_db tagging subsystem.

The first part embeds the tag store (tables `tag`, `tag_alias`,
`content_tags_list`) and the operations of `tags_indexer.py`
(`_check_tag_exists`, `insert_new_tag`, `get_content_ids_by_tag_id`,
`merge_tags`, `get_tag_id_by_alias`) as pure functions over an explicit
connection state (committed database + pending uncommitted view).

The second part embeds the dynamic query compiler of
`files_by_tag_search.py` (`_requests_fabric` and its callers) as a pure
SQL-text builder together with the flat bound-parameter list.
-/

namespace Medialib

/-- A row of the `tag` table: `{id, title, category, parent}`. -/
structure TagRow where
  id : Nat
  title : String
  category : String
  parent : Option Nat
deriving DecidableEq, Repr

/-- A row of the `tag_alias` table: `{tag_id, title}`. -/
structure AliasRow where
  tag_id : Nat
  title : String
deriving DecidableEq, Repr

/-- A row of the `content_tags_list` table: `{content_id, tag_id}`. -/
structure LinkRow where
  content_id : Nat
  tag_id : Nat
deriving DecidableEq, Repr

/-- The database state: the three tables the tag core touches, plus the
sequence counter backing `tag.id DEFAULT`. -/
structure DB where
  tags : List TagRow
  tagAliases : List AliasRow
  links : List LinkRow
  nextId : Nat
deriving DecidableEq, Repr

/-- A psycopg2 connection: the committed database plus the pending
uncommitted view seen by cursors of this connection.  `commit` publishes
the pending view; `rollback` discards it. -/
structure Conn where
  committed : DB
  pending : DB
deriving DecidableEq, Repr

/-- `connection.commit()`. -/
def Conn.commit (c : Conn) : Conn := ⟨c.pending, c.pending⟩

/-- `connection.rollback()`. -/
def Conn.rollback (c : Conn) : Conn := ⟨c.committed, c.committed⟩

/-- A connection with no uncommitted work. -/
def Conn.clean (c : Conn) : Prop := c.pending = c.committed

/-- Database-side and application-side errors raised by the embedded
operations: `psycopg2.errors.UniqueViolation`, `psycopg2.IntegrityError`,
and exceptions raised by `common.get_value_or_fail`. -/
inductive DbError where
  | uniqueViolation
  | integrityError
  | appError (msg : String)
deriving DecidableEq, Repr

/-- Python's `str.replace(old, new)` for a single-character pattern and
replacement, which is all the source uses (`_`/space and `*`/`%`). -/
def replaceChar (s : String) (a b : Char) : String :=
  ⟨s.data.map (fun c => if c = a then b else c)⟩

/-- Python's `in` test for a single-character substring. -/
def containsChar (s : String) (c : Char) : Bool :=
  s.data.any (fun x => x = c)

/-- `INSERT INTO tag (id, title, category) VALUES (DEFAULT, %s, %s)
RETURNING id`, under the unique constraint on `(title, category)`. -/
def DB.insertTag (db : DB) (title category : String) :
    Except DbError (DB × Nat) :=
  if db.tags.any (fun r => r.title = title ∧ r.category = category) then
    .error .uniqueViolation
  else
    .ok ({ db with
            tags := db.tags ++ [⟨db.nextId, title, category, none⟩],
            nextId := db.nextId + 1 }, db.nextId)

/-- `INSERT INTO tag_alias (tag_id, title) VALUES (%s, %s)`, under the
system-wide unique constraint on the alias title. -/
def DB.insertAlias (db : DB) (tid : Nat) (title : String) :
    Except DbError DB :=
  if db.tagAliases.any (fun a => a.title = title) then
    .error .integrityError
  else
    .ok { db with tagAliases := db.tagAliases ++ [⟨tid, title⟩] }

/-- `_check_tag_exists` of `tags_indexer.py`: first
`SELECT ID FROM tag WHERE title=%s and category=%s` on the
underscore-normalized name, then the alias fallback
`SELECT ID FROM tag WHERE id = (SELECT tag_id FROM tag_alias WHERE
tag_alias.title = %s) and category=%s`. -/
def check_tag_exists_q (db : DB) (tag_name tag_category : String) :
    Option Nat :=
  let t := replaceChar tag_name '_' ' '
  match db.tags.find? (fun r => r.title = t ∧ r.category = tag_category) with
  | some r => some r.id
  | none =>
    match db.tagAliases.find? (fun a => a.title = t) with
    | some a =>
      (db.tags.find? (fun r => r.id = a.tag_id ∧
        r.category = tag_category)).map (fun r => r.id)
    | none => none

/-- The default alias derivation at the head of `insert_new_tag`:
`"character:{}"` / `"artist:{}"` prefixes, else the bare name. -/
def deriveAlias (tag_name tag_category : String)
    (tag_alias : Option String) : String :=
  match tag_alias with
  | some a => a
  | none =>
    if tag_category = "character" then "character:" ++ tag_name
    else if tag_category = "artist" then "artist:" ++ tag_name
    else tag_name

/-- The `SELECT tag.category, ID from tag where id=(SELECT tag_id from
tag_alias where tag_alias.title=%s)` lookup used on the alias-conflict
path of `insert_new_tag` (note: it is keyed by the normalized tag name,
not by the conflicting alias). -/
def tagInfoByAliasTitle (db : DB) (title : String) :
    Option (String × Nat) :=
  match db.tagAliases.find? (fun a => a.title = title) with
  | some a =>
    (db.tags.find? (fun r => r.id = a.tag_id)).map
      (fun r => (r.category, r.id))
  | none => none

/-- `insert_new_tag` of `tags_indexer.py`.  Returns the connection state
after the call together with the returned id or the propagated error. -/
def insert_new_tag (tag_name tag_category : String)
    (tag_alias : Option String) (conn : Conn) : Conn × Except DbError Nat :=
  let al := deriveAlias tag_name tag_category tag_alias
  let tname := replaceChar tag_name '_' ' '
  match conn.pending.insertTag tname tag_category with
  | .error e =>
    -- `except psycopg2.errors.UniqueViolation`: rollback and re-resolve.
    let conn := conn.rollback
    match check_tag_exists_q conn.pending tname tag_category with
    | some i => (conn, .ok i)
    | none => (conn, .error e)
  | .ok (db1, tag_id) =>
    let conn1 : Conn := { conn with pending := db1 }
    match conn1.pending.insertAlias tag_id al with
    | .error e =>
      -- `except psycopg2.IntegrityError`: rollback, look up the owner of
      -- the alias row titled with the normalized tag name, delete the
      -- (already rolled back) new tag, then resolve by category.
      let conn2 := conn1.rollback
      let response := tagInfoByAliasTitle conn2.pending tname
      let conn3 : Conn :=
        { conn2 with pending :=
          { conn2.pending with
            tags := conn2.pending.tags.filter (fun r => r.id ≠ tag_id) } }
      match response with
      | none => (conn3, .error e)
      | some (cat0, id0) =>
        if cat0 = "content" then
          let conn4 : Conn :=
            { conn3 with pending :=
              { conn3.pending with
                tags := conn3.pending.tags.map (fun r =>
                  if r.id = id0 then { r with category := tag_category }
                  else r) } }
          (conn4, .ok id0)
        else if tag_category = "content" then
          (conn3, .ok id0)
        else
          (conn3, .error e)
    | .ok db2 =>
      let conn2 : Conn := { conn1 with pending := db2 }
      -- the secondary swapped-separator alias variant; NOT wrapped in a
      -- try/except in the source, so a failure here propagates.
      if containsChar al ' ' then
        match conn2.pending.insertAlias tag_id (replaceChar al ' ' '_') with
        | .error e => (conn2, .error e)
        | .ok db3 =>
          let conn3 : Conn := { conn2 with pending := db3 }
          (conn3.commit, .ok tag_id)
      else if containsChar al '_' then
        match conn2.pending.insertAlias tag_id (replaceChar al '_' ' ') with
        | .error e => (conn2, .error e)
        | .ok db3 =>
          let conn3 : Conn := { conn2 with pending := db3 }
          (conn3.commit, .ok tag_id)
      else
        (conn2.commit, .ok tag_id)

/-- `get_tag_id_by_alias` of `tags_indexer.py`:
`SELECT tag_id FROM tag_alias WHERE title=%s`, first row. -/
def get_tag_id_by_alias (aliasTitle : String) (db : DB) : Option Nat :=
  (db.tagAliases.find? (fun a => a.title = aliasTitle)).map
    (fun a => a.tag_id)

/-- `get_content_ids_by_tag_id` of `tags_indexer.py`:
`SELECT content_id FROM content_tags_list where tag_id = %s`. -/
def get_content_ids_by_tag_id (tag_id : Nat) (db : DB) : List Nat :=
  (db.links.filter (fun r => r.tag_id = tag_id)).map (fun r => r.content_id)

/-- One step of the `UPDATE content_tags_list SET tag_id = %s WHERE
content_id = %s AND tag_id = %s` loop of `merge_tags`. -/
def resetLinkStep (second first : Nat) (links : List LinkRow) (c : Nat) :
    List LinkRow :=
  links.map (fun r =>
    if r.content_id = c ∧ r.tag_id = first then { r with tag_id := second }
    else r)

/-- One step of the `DELETE FROM content_tags_list WHERE content_id = %s
AND tag_id = %s` loop of `merge_tags`. -/
def deleteLinkStep (first : Nat) (links : List LinkRow) (c : Nat) :
    List LinkRow :=
  links.filter (fun r => ¬(r.content_id = c ∧ r.tag_id = first))

/-- The link rewriting and alias reassignment of `merge_tags` (steps up
to and including `sql_reset_alias`): the two cursor loops over
`reset_ids_set` / `remove_first_id_set`, then the bulk
`UPDATE tag_alias SET tag_id = %s WHERE tag_id = %s`. -/
def mergeRelink (first_tag_id second_tag_id : Nat) (db : DB) : DB :=
  let firstContent := (get_content_ids_by_tag_id first_tag_id db).dedup
  let secondContent := (get_content_ids_by_tag_id second_tag_id db).dedup
  let resetIdsSet := firstContent.filter (fun c => c ∉ secondContent)
  let removeFirstIdSet := firstContent.filter (fun c => c ∈ secondContent)
  let links1 := resetIdsSet.foldl
    (resetLinkStep second_tag_id first_tag_id) db.links
  let links2 := removeFirstIdSet.foldl
    (deleteLinkStep first_tag_id) links1
  { db with
    links := links2,
    tagAliases := db.tagAliases.map (fun a =>
      if a.tag_id = first_tag_id then { a with tag_id := second_tag_id }
      else a) }

/-- The parent-cycle guards and the final `DELETE FROM tag` of
`merge_tags`; the two `fetchone` results go through
`common.get_value_or_fail`, which raises when a tag row is missing.
Returns the database state reached together with the outcome. -/
def mergeParentsAndDelete (first_tag_id second_tag_id : Nat) (db : DB) :
    DB × Except DbError Unit :=
  match db.tags.find? (fun r => r.id = second_tag_id) with
  | none =>
    (db, .error (.appError ("Tag with ID " ++ toString second_tag_id ++
      " not found")))
  | some r2 =>
    let db3 : DB :=
      if r2.parent = some first_tag_id then
        { db with tags := db.tags.map (fun r =>
            if r.id = second_tag_id then { r with parent := none } else r) }
      else db
    match db3.tags.find? (fun r => r.id = first_tag_id) with
    | none =>
      (db3, .error (.appError ("Tag with ID " ++ toString first_tag_id ++
        " not found")))
    | some r1 =>
      let db4 : DB :=
        if r1.parent = some second_tag_id then
          { db3 with tags := db3.tags.map (fun r =>
              if r.id = first_tag_id then { r with parent := none } else r) }
        else db3
      ({ db4 with
        tags := db4.tags.filter (fun r => r.id ≠ first_tag_id) }, .ok ())

/-- `merge_tags` of `tags_indexer.py`: relink content from the first tag
to the second, drop duplicate links, reassign aliases, guard the two-node
parent cycle, delete the first tag, then commit.  Every statement runs
on the pending view; the single `connection.commit()` at the end
publishes it, and an exception propagates without committing. -/
def merge_tags (first_tag_id second_tag_id : Nat) (conn : Conn) :
    Conn × Except DbError Unit :=
  let db2 := mergeRelink first_tag_id second_tag_id conn.pending
  match mergeParentsAndDelete first_tag_id second_tag_id db2 with
  | (db5, .ok ()) => (Conn.commit { conn with pending := db5 }, .ok ())
  | (db', .error e) => ({ conn with pending := db' }, .error e)

/-- All effects of the merge sequence of spec §4.4 applied to a database
state at once: content links of the first tag rewritten to the second
unless the second already has them (in which case they are dropped),
aliases reassigned, the two-node parent cycles cleared, and the first
tag's row removed. -/
def mergeEffects (first_tag_id second_tag_id : Nat) (db : DB) : DB :=
  { db with
    tags := (db.tags.map (fun r =>
      if r.id = second_tag_id ∧ r.parent = some first_tag_id then
        { r with parent := none }
      else if r.id = first_tag_id ∧ r.parent = some second_tag_id then
        { r with parent := none }
      else r)).filter (fun r => r.id ≠ first_tag_id),
    tagAliases := db.tagAliases.map (fun a =>
      if a.tag_id = first_tag_id then { a with tag_id := second_tag_id }
      else a),
    links := (db.links.map (fun r =>
      if r.tag_id = first_tag_id ∧
          LinkRow.mk r.content_id second_tag_id ∉ db.links then
        ⟨r.content_id, second_tag_id⟩
      else r)).filter (fun r => r.tag_id ≠ first_tag_id) }

/-!
## The query compiler of `files_by_tag_search.py`

The external stored procedures `get_tags_ids(label)` and
`get_parent_tag_ids(id)` are kept abstract as resolution environments
`env : String → List Nat` and `envPar : Nat → List Nat`; the compiler
only consumes the row lists they return.
-/

/-- `ORDERING_BY` of `files_by_tag_search.py`. -/
inductive ORDERING_BY where
  | DATE_DECREASING
  | DATE_INCREASING
  | NONE
  | RANDOM
deriving DecidableEq, Repr

/-- `ordering_constants` (the dict has no entry for `NONE`; the code only
reads it when the ordering is not `NONE`). -/
def ordering_constants : ORDERING_BY → String
  | .DATE_DECREASING => "addition_date DESC"
  | .DATE_INCREASING => "addition_date"
  | .RANDOM => "RANDOM()"
  | .NONE => ""

/-- `HIDDEN_FILTERING` of `files_by_tag_search.py`. -/
inductive HIDDEN_FILTERING where
  | FILTER
  | SHOW
  | ONLY_HIDDEN
deriving DecidableEq, Repr

/-- `hidden_filtering_constants`. -/
def hidden_filtering_constants : HIDDEN_FILTERING → String
  | .SHOW => ""
  | .FILTER => "hidden=FALSE"
  | .ONLY_HIDDEN => "hidden=TRUE"

/-- A tag reference inside a group's `"tags"` list: a string label, an
integer id, or a value of any other Python type (the code checks
`type(tag) is str` / `type(tag) is int` and has no other branch). -/
inductive TagRef where
  | str (s : String)
  | int (n : Nat)
  | other
deriving DecidableEq, Repr

/-- A tag group dictionary `{"tags": [...], "not": bool}`. -/
structure TagsGroup where
  tags : List TagRef
  notFlag : Bool
deriving DecidableEq, Repr

/-- Errors of the compiler path: the two `raise Exception` guards for a
`None` group, psycopg2's "no results to fetch" on `fetchall` without a
prior `execute`, and the placeholder/parameter arity failure of the final
`cursor.execute`. -/
inductive FabricError where
  | noneGroup
  | progError
  | paramMismatch
deriving DecidableEq, Repr

/-- The per-tag resolution loop body over a group's `"tags"` list.  The
cursor state is `some rows` when results are pending (after an
`execute`; `fetchall` consumes them leaving `some []`), `none` on a
fresh cursor.  A reference that is neither a string nor an int executes
nothing, so its `fetchall` reads whatever the cursor already holds. -/
def processTags (env : String → List Nat) (envPar : Nat → List Nat) :
    List TagRef → Option (List Nat) →
    Except FabricError (List Nat × Option (List Nat))
  | [], st => .ok ([], st)
  | t :: rest, st =>
    let st1 : Option (List Nat) :=
      match t with
      | .str s => some (env s)
      | .int n => some (envPar n)
      | .other => st
    match st1 with
    | none => .error .progError
    | some rows =>
      match processTags env envPar rest (some []) with
      | .error e => .error e
      | .ok (acc, st2) => .ok (rows ++ acc, st2)

/-- The first loop of `_requests_fabric`: per group, resolve every
reference, record the raw (pre-deduplication) row count in
`tags_count`, and extend the flat `tag_ids` list with the deduplicated
id set of the group. -/
def processGroups (env : String → List Nat) (envPar : Nat → List Nat) :
    List (Option TagsGroup) → Option (List Nat) →
    Except FabricError (List Nat × List Nat × Option (List Nat))
  | [], st => .ok ([], [], st)
  | none :: _, _ => .error .noneGroup
  | some g :: rest, st =>
    match processTags env envPar g.tags st with
    | .error e => .error e
    | .ok (raw, st1) =>
      match processGroups env envPar rest st1 with
      | .error e => .error e
      | .ok (counts, ids, st2) =>
        .ok (raw.length :: counts, raw.dedup ++ ids, st2)

/-- `"%s"` followed by `", %s"` repeated `val - 1` times — the
`tag_set_list` built by `for j in range(1, val)` (note `val = 0` still
yields one `"%s"`). -/
def tagSetList (val : Nat) : String :=
  "%s" ++ String.join (List.replicate (val - 1) ", %s")

/-- The positive group fragment (`{}` written as escaped braces). -/
def posBlock : String :=
  "id in (SELECT content_id from content_tags_list where tag_id in (\x7b\x7d))"

/-- The negated group fragment. -/
def negBlock : String :=
  "id not in (SELECT content_id from content_tags_list where tag_id in (\x7b\x7d))"

/-- The second loop of `_requests_fabric`: append one fragment per group
(joined with `" AND "` between groups) and collect the `tags_set_lists`
entries fed to `str.format`. -/
def buildFragments : List (Nat × TagsGroup) → String × List String
  | [] => ("", [])
  | (val, g) :: rest =>
    let frag := if g.notFlag then negBlock else posBlock
    let sep := if rest.isEmpty then "" else " AND "
    let (s, ls) := buildFragments rest
    (frag ++ sep ++ s, tagSetList val :: ls)

/-- Python `str.format` with `\x7b\x7d` holes, replacing holes
left-to-right with the given arguments. -/
def pyFormatAux : List Char → List String → List Char
  | [], _ => []
  | '\x7b' :: '\x7d' :: rest, a :: args => a.data ++ pyFormatAux rest args
  | c :: rest, args => c :: pyFormatAux rest args

/-- `result_sql_block.format(*tags_set_lists)`. -/
def pyFormat (s : String) (args : List String) : String :=
  ⟨pyFormatAux s.data args⟩

/-- `_requests_fabric` up to (but excluding) the final
`cursor.execute`: the assembled SQL text and the flat bound-parameter
list.  The cursor starts fresh (`none`), as at every call site. -/
def requests_fabric_compile (env : String → List Nat)
    (envPar : Nat → List Nat) (tagsGroups : List (Option TagsGroup))
    (limit offset : Option Nat) (order_by : ORDERING_BY)
    (filter_hidden : HIDDEN_FILTERING) (base_sql_block : String) :
    Except FabricError (String × List Nat) :=
  match tagsGroups with
  | [] =>
    let sql0 := base_sql_block
    let sql1 :=
      if filter_hidden ≠ HIDDEN_FILTERING.SHOW then
        sql0 ++ hidden_filtering_constants filter_hidden
      else sql0
    let sql2 :=
      if order_by ≠ ORDERING_BY.NONE then
        sql1 ++ " ORDER BY " ++ ordering_constants order_by
      else sql1
    let sql3 :=
      match limit with
      | some l =>
        let s := sql2 ++ " LIMIT " ++ toString l
        match offset with
        | some o => s ++ " OFFSET " ++ toString o
        | none => s
      | none => sql2
    .ok (sql3, [])
  | _ :: _ =>
    match processGroups env envPar tagsGroups none with
    | .error e => .error e
    | .ok (counts, tag_ids, _) =>
      let groups' := tagsGroups.filterMap id
      let (frags, setLists) := buildFragments (counts.zip groups')
      let sql0 := pyFormat (base_sql_block ++ frags) setLists
      let sql1 :=
        if filter_hidden ≠ HIDDEN_FILTERING.SHOW then
          sql0 ++ " AND " ++ hidden_filtering_constants filter_hidden
        else sql0
      let sql2 :=
        if order_by ≠ ORDERING_BY.NONE then
          sql1 ++ " ORDER BY " ++ ordering_constants order_by
        else sql1
      let sql3 :=
        match limit with
        | some l =>
          let s := sql2 ++ " LIMIT " ++ toString l
          match offset with
          | some o => s ++ " OFFSET " ++ toString o
          | none => s
        | none => sql2
      .ok (sql3, tag_ids)

/-- Number of `%s` placeholders in a SQL text (psycopg2's binding
arity), counted left to right. -/
def countPlaceholders : List Char → Nat
  | [] => 0
  | '%' :: 's' :: rest => countPlaceholders rest + 1
  | _ :: rest => countPlaceholders rest

/-- Placeholder count of a string. -/
def psCount (s : String) : Nat := countPlaceholders s.data

/-- The final `cursor.execute(result_sql_block, tag_ids)`: psycopg2
raises when the placeholder count differs from the number of bound
parameters. -/
def requests_fabric (env : String → List Nat) (envPar : Nat → List Nat)
    (tagsGroups : List (Option TagsGroup)) (limit offset : Option Nat)
    (order_by : ORDERING_BY) (filter_hidden : HIDDEN_FILTERING)
    (base_sql_block : String) : Except FabricError (String × List Nat) :=
  match requests_fabric_compile env envPar tagsGroups limit offset
      order_by filter_hidden base_sql_block with
  | .error e => .error e
  | .ok (sql, ids) =>
    if psCount sql = ids.length then .ok (sql, ids)
    else .error .paramMismatch

/-- The base SELECT of `get_media_by_tags` and `get_all_media`. -/
def baseContentSelect : String :=
  "SELECT ID, file_path, content_type, title from content where "

/-- The characters after the first `where ` of a statement, if any. -/
def dropThroughWhere : List Char → Option (List Char)
  | 'w' :: 'h' :: 'e' :: 'r' :: 'e' :: ' ' :: rest => some rest
  | _ :: rest => dropThroughWhere rest
  | [] => none

/-- The text of the statement after its (first) `where `; empty when the
`WHERE` clause has no condition (which is invalid SQL) or when there is
no `where` at all. -/
def whereBody (s : String) : String :=
  match dropThroughWhere s.data with
  | some cs => ⟨cs⟩
  | none => ""

/-- The tag currently owning a given alias title (spec §4.2's "the tag
currently owning that alias"). -/
def aliasOwner (db : DB) (title : String) : Option TagRow :=
  (db.tagAliases.find? (fun a => a.title = title)).bind
    (fun a => db.tags.find? (fun r => r.id = a.tag_id))

/-!
## Concrete fixtures used by counterexamples and witnesses
-/

/-- A resolution environment where the labels `"a"` and `"b"` both
resolve to tag id 5 (overlapping resolution), `"c"` to ids 7 and 8, and
every other label to the empty set. -/
def envDup : String → List Nat
  | "a" => [5]
  | "b" => [5]
  | "c" => [7, 8]
  | _ => []

/-- A hierarchy-expansion environment returning just the id itself. -/
def envParId : Nat → List Nat := fun n => [n]

/-- An empty database with the id sequence at 1. -/
def db0 : DB := ⟨[], [], [], 1⟩

/-- A clean connection over the empty database. -/
def conn0 : Conn := ⟨db0, db0⟩

/-- A store holding a `content`-category stub tag (id 7) whose single
alias `"rarity"` equals its title. -/
def dbStub : DB := ⟨[⟨7, "rarity", "content", none⟩], [⟨7, "rarity"⟩], [], 8⟩

/-- Clean connection over `dbStub`. -/
def connStub : Conn := ⟨dbStub, dbStub⟩

/-- A store where the `content`-category tag 7 owns the alias
`"artist:rarity2"` but no alias row is titled `"rarity2"`. -/
def dbStub2 : DB :=
  ⟨[⟨7, "x", "content", none⟩], [⟨7, "artist:rarity2"⟩], [], 8⟩

/-- Clean connection over `dbStub2`. -/
def connStub2 : Conn := ⟨dbStub2, dbStub2⟩

/-- A store where the underscore variant `"my_tag"` is already an alias
of tag 3 while `"my tag"` is free. -/
def dbVariantTaken : DB :=
  ⟨[⟨3, "other", "artist", none⟩], [⟨3, "my_tag"⟩], [], 4⟩

/-- Clean connection over `dbVariantTaken`. -/
def connVariantTaken : Conn := ⟨dbVariantTaken, dbVariantTaken⟩

/-- A store with tags 1 and 2 (2 a child of 1), one alias each, and
content 10 linked to 1 only, 11 to both, 12 to 2 only. -/
def dbMergeEx : DB :=
  ⟨[⟨1, "a", "artist", none⟩, ⟨2, "b", "artist", some 1⟩],
   [⟨1, "a"⟩, ⟨2, "b"⟩],
   [⟨10, 1⟩, ⟨11, 1⟩, ⟨11, 2⟩, ⟨12, 2⟩], 3⟩

/-- Clean connection over `dbMergeEx`. -/
def connMergeEx : Conn := ⟨dbMergeEx, dbMergeEx⟩

/-!
## Claim theorems: the query compiler
-/

/-- Claim C2: fails on the code.  For the single positive group whose
two labels `"a"` and `"b"` both resolve to tag id 5, the compiled
fragment carries 2 placeholders (`tags_count` records the raw,
pre-deduplication row count) while the flat bound-parameter list holds
the single deduplicated id, so the final `cursor.execute` raises an
arity error instead of binding one value per placeholder. -/
theorem c2_duplicate_resolution_placeholder_arity :
    (requests_fabric_compile envDup envParId
        [some ⟨[.str "a", .str "b"], false⟩] none none
        .NONE .FILTER baseContentSelect).toOption.map
      (fun r => (psCount r.1, r.2.length)) = some (2, 1) ∧
    requests_fabric envDup envParId
        [some ⟨[.str "a", .str "b"], false⟩] none none
        .NONE .FILTER baseContentSelect = .error .paramMismatch := by
  exact ⟨rfl, rfl⟩

/-- Claim C3: fails on the code.  A positive group whose only reference
resolves to the empty set still emits one `%s` placeholder
(`tag_set_list` starts at `"%s"` before `range(1, 0)` adds nothing)
while contributing zero bound parameters, so the statement has a
dangling unbound placeholder and the final `cursor.execute` raises
instead of producing an always-false clause. -/
theorem c3_zero_resolving_group_unbound_placeholder :
    (requests_fabric_compile envDup envParId
        [some ⟨[.str "unmatched"], false⟩] none none
        .NONE .FILTER baseContentSelect).toOption.map
      (fun r => (psCount r.1, r.2.length)) = some (1, 0) ∧
    requests_fabric envDup envParId
        [some ⟨[.str "unmatched"], false⟩] none none
        .NONE .FILTER baseContentSelect = .error .paramMismatch := by
  exact ⟨rfl, rfl⟩

/-- Claim C8, counterexample: with an empty group list and the show-all
hidden filter, the emitted statement is exactly the base block ending in
`where ` with an empty condition — not valid SQL — refuting "in every
such combination the emitted statement is valid SQL". -/
theorem c8_show_all_empty_groups_invalid :
    requests_fabric envDup envParId [] none none .NONE .SHOW
        baseContentSelect = .ok (baseContentSelect, []) ∧
    whereBody baseContentSelect = "" := by
  exact ⟨rfl, rfl⟩

/-- Claim C8 as amended: with an empty group list the hidden clause is
absent for show-all (leaving a dangling `where `, which is invalid SQL),
`hidden=FALSE` for filter-hidden and `hidden=TRUE` for only-hidden (both
valid: nonempty condition, zero placeholders for zero parameters), and
the hidden clause is joined with ` AND ` when a group fragment precedes
it. -/
theorem c8_empty_groups_hidden_clause :
    requests_fabric envDup envParId [] none none .NONE .SHOW
        baseContentSelect = .ok (baseContentSelect, []) ∧
    (requests_fabric envDup envParId [] none none .NONE .FILTER
        baseContentSelect =
      .ok (baseContentSelect ++ "hidden=FALSE", []) ∧
      whereBody (baseContentSelect ++ "hidden=FALSE") = "hidden=FALSE" ∧
      psCount (baseContentSelect ++ "hidden=FALSE") = 0) ∧
    (requests_fabric envDup envParId [] none none .NONE .ONLY_HIDDEN
        baseContentSelect =
      .ok (baseContentSelect ++ "hidden=TRUE", []) ∧
      whereBody (baseContentSelect ++ "hidden=TRUE") = "hidden=TRUE" ∧
      psCount (baseContentSelect ++ "hidden=TRUE") = 0) ∧
    requests_fabric envDup envParId [some ⟨[.str "a"], false⟩] none none
        .NONE .FILTER baseContentSelect =
      .ok (baseContentSelect ++
        "id in (SELECT content_id from content_tags_list where tag_id in (%s))" ++
        " AND hidden=FALSE", [5]) := by
  exact ⟨rfl, ⟨rfl, rfl, rfl⟩, ⟨rfl, rfl, rfl⟩, rfl⟩

/-- Resolution aborts with an error whenever the group list contains a
`None` entry (the `raise Exception("Unexpected None: ...")` guard). -/
lemma processGroups_isOk_false_of_none_mem (env : String → List Nat)
    (envPar : Nat → List Nat) :
    ∀ (gs : List (Option TagsGroup)) (st : Option (List Nat)),
      (none : Option TagsGroup) ∈ gs →
      (processGroups env envPar gs st).isOk = false := by
  intro gs
  induction gs with
  | nil => intro st h; cases h
  | cons hd tl ih =>
    intro st h
    cases hd with
    | none => rfl
    | some g =>
      have htl : (none : Option TagsGroup) ∈ tl := by
        rcases List.mem_cons.mp h with h1 | h2
        · exact absurd h1 (by simp)
        · exact h2
      show (processGroups env envPar (some g :: tl) st).isOk = false
      unfold processGroups
      split
      · rfl
      · rename_i raw st1 hpt
        split
        · rfl
        · rename_i counts ids st2 hpg
          have hrec := ih st1 htl
          rw [hpg] at hrec
          simp [Except.isOk, Except.toBool] at hrec

/-- `_requests_fabric` errors out (before executing any assembled
statement) whenever the group list contains a `None` entry. -/
lemma requests_fabric_isOk_false_of_none_mem (env : String → List Nat)
    (envPar : Nat → List Nat) (gs : List (Option TagsGroup))
    (lim off : Option Nat) (ob : ORDERING_BY) (fh : HIDDEN_FILTERING)
    (base : String) (h : (none : Option TagsGroup) ∈ gs) :
    (requests_fabric env envPar gs lim off ob fh base).isOk = false := by
  cases gs with
  | nil => cases h
  | cons hd tl =>
    have hpg := processGroups_isOk_false_of_none_mem env envPar
      (hd :: tl) none h
    unfold requests_fabric requests_fabric_compile
    cases hres : processGroups env envPar (hd :: tl) none with
    | error e => simp only [hres]; rfl
    | ok q =>
      rw [hres] at hpg
      simp [Except.isOk, Except.toBool] at hpg

/-- Claim C9, counterexample: for the group whose `"tags"` list holds
the well-typed label `"a"` followed by a reference of another type, the
compiler raises no error at all: the malformed entry executes nothing,
its `fetchall` returns the already-consumed (empty) result of the
previous reference, and the assembled statement is executed. -/
theorem c9_malformed_ref_is_executed :
    requests_fabric envDup envParId [some ⟨[.str "a", .other], false⟩]
        none none .NONE .FILTER baseContentSelect =
      .ok (baseContentSelect ++
        "id in (SELECT content_id from content_tags_list where tag_id in (%s))" ++
        " AND hidden=FALSE", [5]) := by
  exact rfl

/-- Claim C9 as amended: a `None` group entry always makes the compiler
raise before executing the assembled statement, but a tag reference that
is neither a string label nor an integer id is silently skipped — the
query behaves exactly as if the malformed reference were absent. -/
theorem c9_none_fails_fast_other_refs_skipped :
    (∀ (env : String → List Nat) (envPar : Nat → List Nat)
        (gs : List (Option TagsGroup)) (lim off : Option Nat)
        (ob : ORDERING_BY) (fh : HIDDEN_FILTERING) (base : String),
      (none : Option TagsGroup) ∈ gs →
      (requests_fabric env envPar gs lim off ob fh base).isOk = false) ∧
    requests_fabric envDup envParId [some ⟨[.str "a", .other], false⟩]
        none none .NONE .FILTER baseContentSelect =
      requests_fabric envDup envParId [some ⟨[.str "a"], false⟩]
        none none .NONE .FILTER baseContentSelect := by
  constructor
  · intro env envPar gs lim off ob fh base h
    exact requests_fabric_isOk_false_of_none_mem env envPar gs lim off
      ob fh base h
  · exact rfl

/-- Witness for `c9_none_fails_fast_other_refs_skipped`: a concrete
query whose group list is `[None]` fails. -/
theorem c9_none_fails_fast_witness :
    (requests_fabric envDup envParId [none] none none .NONE .FILTER
      baseContentSelect).isOk = false :=
  c9_none_fails_fast_other_refs_skipped.1 envDup envParId [none] none
    none .NONE .FILTER baseContentSelect (List.mem_singleton.mpr rfl)

/-!
## Claim theorems: the tag registrar
-/

/-- Claim C5, counterexample: registering `("rarity2", "artist")` with
the derived alias `"artist:rarity2"` whose current owner (tag 7) has
category `"content"` does not upgrade that owner and return its id —
the conflict handler looks the owner up by the normalized tag name
`"rarity2"`, finds no such alias row, and re-raises the integrity
error. -/
theorem c5_content_stub_not_found_by_alias :
    (aliasOwner dbStub2 (deriveAlias "rarity2" "artist" none)).map
      (fun r => r.category) = some "content" ∧
    insert_new_tag "rarity2" "artist" none connStub2 =
      (connStub2, .error .integrityError) := by
  exact ⟨rfl, rfl⟩

/-- Claim C6, counterexample: with alias `"my tag"` free but its
underscore variant `"my_tag"` already owned by tag 3, the registration
of `("mytag", "set", "my tag")` fails with the propagated integrity
error of the secondary variant insert (it is not wrapped in a
try/except) and commits nothing, instead of ignoring the failure. -/
theorem c6_secondary_variant_failure_propagates :
    dbVariantTaken.tagAliases.any (fun a => a.title = "my tag") = false ∧
    dbVariantTaken.tagAliases.any (fun a => a.title = "my_tag") = true ∧
    (insert_new_tag "mytag" "set" (some "my tag") connVariantTaken).2 =
      .error .integrityError ∧
    (insert_new_tag "mytag" "set" (some "my tag")
      connVariantTaken).1.committed = dbVariantTaken := by
  exact ⟨rfl, rfl, rfl, rfl⟩

/-- The database state after a conflict-free registration: the new tag
row, the chosen alias, and the swapped-separator alias variant when the
chosen alias contains a space or an underscore. -/
def freshTagDB (db : DB) (tname tag_category al : String) : DB :=
  { tags := db.tags ++ [⟨db.nextId, tname, tag_category, none⟩],
    tagAliases := db.tagAliases ++ [⟨db.nextId, al⟩] ++
      (if containsChar al ' ' then [⟨db.nextId, replaceChar al ' ' '_'⟩]
       else if containsChar al '_' then
        [⟨db.nextId, replaceChar al '_' ' '⟩]
       else []),
    links := db.links,
    nextId := db.nextId + 1 }

/-- On a clean connection with no `(title, category)` conflict and no
alias conflict (for the chosen alias or its swapped variant),
`insert_new_tag` commits exactly the fresh-registration state and
returns the new id. -/
lemma insert_new_tag_fresh (conn : Conn) (tag_name tag_category : String)
    (ta : Option String)
    (hcl : conn.pending = conn.committed)
    (hNoTag : conn.committed.tags.any (fun r =>
      r.title = replaceChar tag_name '_' ' ' ∧
      r.category = tag_category) = false)
    (hA : conn.committed.tagAliases.any (fun a =>
      a.title = deriveAlias tag_name tag_category ta) = false)
    (hsp : containsChar (deriveAlias tag_name tag_category ta) ' ' = true →
      replaceChar (deriveAlias tag_name tag_category ta) ' ' '_' ≠
        deriveAlias tag_name tag_category ta ∧
      conn.committed.tagAliases.any (fun a =>
        a.title = replaceChar (deriveAlias tag_name tag_category ta)
          ' ' '_') = false)
    (hus : containsChar (deriveAlias tag_name tag_category ta) ' ' = false →
      containsChar (deriveAlias tag_name tag_category ta) '_' = true →
      replaceChar (deriveAlias tag_name tag_category ta) '_' ' ' ≠
        deriveAlias tag_name tag_category ta ∧
      conn.committed.tagAliases.any (fun a =>
        a.title = replaceChar (deriveAlias tag_name tag_category ta)
          '_' ' ') = false) :
    insert_new_tag tag_name tag_category ta conn =
      (⟨freshTagDB conn.committed (replaceChar tag_name '_' ' ')
          tag_category (deriveAlias tag_name tag_category ta),
        freshTagDB conn.committed (replaceChar tag_name '_' ' ')
          tag_category (deriveAlias tag_name tag_category ta)⟩,
       .ok conn.committed.nextId) := by
  set al := deriveAlias tag_name tag_category ta with hal
  set tname := replaceChar tag_name '_' ' ' with htn
  unfold insert_new_tag
  rw [← hal, ← htn, hcl]
  unfold DB.insertTag
  simp only [hNoTag, Bool.false_eq_true, if_false]
  unfold DB.insertAlias
  simp only [hA, Bool.false_eq_true, if_false]
  cases hc1 : containsChar al ' ' with
  | true =>
    obtain ⟨hne, hA2⟩ := hsp hc1
    simp only [hc1, if_true]
    simp only [List.any_append, hA2, List.any_cons, List.any_nil,
      Bool.or_false, Bool.false_or, decide_eq_true_eq]
    rw [if_neg (fun hh => hne hh.symm)]
    simp [freshTagDB, Conn.commit, hc1]
  | false =>
    cases hc2 : containsChar al '_' with
    | true =>
      obtain ⟨hne, hA2⟩ := hus hc1 hc2
      simp only [hc1, Bool.false_eq_true, if_false, hc2, if_true]
      simp only [List.any_append, hA2, List.any_cons, List.any_nil,
        Bool.or_false, Bool.false_or, decide_eq_true_eq]
      rw [if_neg (fun hh => hne hh.symm)]
      simp [freshTagDB, Conn.commit, hc1, hc2]
    | false =>
      simp only [hc1, hc2, Bool.false_eq_true, if_false]
      simp [freshTagDB, Conn.commit, hc1, hc2]

/-- Replacing `a` by `b` a second time changes nothing (the first pass
removed every `a`). -/
lemma replaceChar_twice (a b : Char) (hba : b ≠ a) (s : String) :
    replaceChar (replaceChar s a b) a b = replaceChar s a b := by
  unfold replaceChar
  refine congrArg String.mk ?_
  show ((s.data.map fun c => if c = a then b else c).map
      fun c => if c = a then b else c) =
    s.data.map fun c => if c = a then b else c
  rw [List.map_map]
  refine List.map_congr_left ?_
  intro c _
  by_cases hc : c = a
  · simp [hc, hba]
  · simp [hc]

/-- When a tag with the normalized title and category already exists,
the optimistic insert hits the uniqueness violation, rolls back, and
`_check_tag_exists` re-resolves to the existing row's id; the store is
left unchanged. -/
lemma insert_new_tag_existing (conn : Conn) (tag_name tag_category : String)
    (ta : Option String) (r : TagRow)
    (hcl : conn.pending = conn.committed)
    (hfind : conn.committed.tags.find? (fun t =>
      t.title = replaceChar tag_name '_' ' ' ∧
      t.category = tag_category) = some r) :
    insert_new_tag tag_name tag_category ta conn =
      (⟨conn.committed, conn.committed⟩, .ok r.id) := by
  have hmem := List.mem_of_find?_eq_some hfind
  have hp := List.find?_some hfind
  have hany : conn.committed.tags.any (fun t =>
      t.title = replaceChar tag_name '_' ' ' ∧
      t.category = tag_category) = true :=
    List.any_eq_true.mpr ⟨r, hmem, hp⟩
  unfold insert_new_tag DB.insertTag
  rw [hcl]
  simp only [hany, if_true]
  have hidem : replaceChar (replaceChar tag_name '_' ' ') '_' ' ' =
      replaceChar tag_name '_' ' ' :=
    replaceChar_twice '_' ' ' (by decide) tag_name
  simp only [check_tag_exists_q, Conn.rollback, hidem, hfind]

/-- Claim C1: idempotent, race-converging registration.  First part:
when a tag with the normalized `(title, category)` already exists in the
committed store, `insert_new_tag` hits the uniqueness conflict on its
own insert, rolls back, re-resolves via the `_check_tag_exists` lookup,
and returns the existing tag's id with the store unchanged.  Second
part: two sequential registrations of the same `(title, category)` from
a conflict-free clean state both return the id assigned by the first,
and exactly one tag row with that `(title, category)` remains. -/
theorem c1_idempotent_registration :
    (∀ (conn : Conn) (tag_name tag_category : String) (ta : Option String)
        (r : TagRow),
      conn.pending = conn.committed →
      conn.committed.tags.find? (fun t =>
        t.title = replaceChar tag_name '_' ' ' ∧
        t.category = tag_category) = some r →
      insert_new_tag tag_name tag_category ta conn =
        (⟨conn.committed, conn.committed⟩, .ok r.id)) ∧
    (∀ (conn : Conn) (tag_name tag_category : String) (ta : Option String),
      conn.pending = conn.committed →
      conn.committed.tags.any (fun t =>
        t.title = replaceChar tag_name '_' ' ' ∧
        t.category = tag_category) = false →
      conn.committed.tagAliases.any (fun a =>
        a.title = deriveAlias tag_name tag_category ta) = false →
      (containsChar (deriveAlias tag_name tag_category ta) ' ' = true →
        replaceChar (deriveAlias tag_name tag_category ta) ' ' '_' ≠
          deriveAlias tag_name tag_category ta ∧
        conn.committed.tagAliases.any (fun a =>
          a.title = replaceChar (deriveAlias tag_name tag_category ta)
            ' ' '_') = false) →
      (containsChar (deriveAlias tag_name tag_category ta) ' ' = false →
        containsChar (deriveAlias tag_name tag_category ta) '_' = true →
        replaceChar (deriveAlias tag_name tag_category ta) '_' ' ' ≠
          deriveAlias tag_name tag_category ta ∧
        conn.committed.tagAliases.any (fun a =>
          a.title = replaceChar (deriveAlias tag_name tag_category ta)
            '_' ' ') = false) →
      ((insert_new_tag tag_name tag_category ta conn).2 =
          .ok conn.committed.nextId ∧
        (insert_new_tag tag_name tag_category ta
          ((insert_new_tag tag_name tag_category ta conn).1)).2 =
          .ok conn.committed.nextId ∧
        ((insert_new_tag tag_name tag_category ta
            ((insert_new_tag tag_name tag_category ta conn).1)).1.committed.tags.filter
          (fun t => t.title = replaceChar tag_name '_' ' ' ∧
            t.category = tag_category)).length = 1)) := by
  constructor
  · intro conn tag_name tag_category ta r hcl hfind
    exact insert_new_tag_existing conn tag_name tag_category ta r hcl hfind
  · intro conn tag_name tag_category ta hcl hNoTag hA hsp hus
    have h1 := insert_new_tag_fresh conn tag_name tag_category ta hcl
      hNoTag hA hsp hus
    have hnone : conn.committed.tags.find? (fun t =>
        t.title = replaceChar tag_name '_' ' ' ∧
        t.category = tag_category) = none :=
      List.find?_eq_none.mpr (List.any_eq_false.mp hNoTag)
    have hfind2 : (freshTagDB conn.committed
        (replaceChar tag_name '_' ' ') tag_category
        (deriveAlias tag_name tag_category ta)).tags.find? (fun t =>
          t.title = replaceChar tag_name '_' ' ' ∧
          t.category = tag_category) =
        some ⟨conn.committed.nextId, replaceChar tag_name '_' ' ',
          tag_category, none⟩ := by
      unfold freshTagDB
      rw [List.find?_append, hnone]
      simp
    have h2 := insert_new_tag_existing
      ⟨freshTagDB conn.committed (replaceChar tag_name '_' ' ')
          tag_category (deriveAlias tag_name tag_category ta),
        freshTagDB conn.committed (replaceChar tag_name '_' ' ')
          tag_category (deriveAlias tag_name tag_category ta)⟩
      tag_name tag_category ta _ rfl hfind2
    rw [h1]
    refine ⟨rfl, ?_, ?_⟩
    · rw [h2]
    · rw [h2]
      show ((freshTagDB conn.committed (replaceChar tag_name '_' ' ')
          tag_category (deriveAlias tag_name tag_category ta)).tags.filter
        _).length = 1
      unfold freshTagDB
      rw [List.filter_append,
        List.filter_eq_nil_iff.mpr (List.any_eq_false.mp hNoTag)]
      simp

/-- Witness for `c1_idempotent_registration`: re-registering the
existing `("rarity", "content")` tag returns its id 7 unchanged, and a
double registration of `("my_tag", "artist")` on an empty store returns
id 1 both times leaving a single matching row. -/
theorem c1_idempotent_registration_witness :
    insert_new_tag "rarity" "content" none connStub =
      (⟨dbStub, dbStub⟩, .ok 7) ∧
    ((insert_new_tag "my_tag" "artist" none conn0).2 = .ok 1 ∧
      (insert_new_tag "my_tag" "artist" none
        ((insert_new_tag "my_tag" "artist" none conn0).1)).2 = .ok 1 ∧
      ((insert_new_tag "my_tag" "artist" none
          ((insert_new_tag "my_tag" "artist" none conn0).1)).1.committed.tags.filter
        (fun t => t.title = replaceChar "my_tag" '_' ' ' ∧
          t.category = "artist")).length = 1) :=
  ⟨c1_idempotent_registration.1 connStub "rarity" "content" none
      ⟨7, "rarity", "content", none⟩ rfl rfl,
    c1_idempotent_registration.2 conn0 "my_tag" "artist" none rfl rfl rfl
      (by decide) (by decide)⟩

/-- Characterization of the alias-conflict path of `insert_new_tag` on
a clean connection: the tag insert succeeds, the alias insert hits the
uniqueness conflict and rolls everything back (so the duplicate-tag
`DELETE` filters on an id that no committed row carries), and the
outcome is decided by the category of the tag owning the alias row
titled with the normalized tag name. -/
lemma insert_new_tag_alias_conflict (conn : Conn)
    (tag_name tag_category : String) (ta : Option String)
    (hcl : conn.pending = conn.committed)
    (hNoTag : conn.committed.tags.any (fun r =>
      r.title = replaceChar tag_name '_' ' ' ∧
      r.category = tag_category) = false)
    (hConf : conn.committed.tagAliases.any (fun a =>
      a.title = deriveAlias tag_name tag_category ta) = true)
    (hwf : conn.committed.tags.all (fun r =>
      r.id ≠ conn.committed.nextId) = true) :
    insert_new_tag tag_name tag_category ta conn =
      match tagInfoByAliasTitle conn.committed
          (replaceChar tag_name '_' ' ') with
      | none => (⟨conn.committed, conn.committed⟩, .error .integrityError)
      | some (cat0, id0) =>
        if cat0 = "content" then
          (⟨conn.committed,
            { conn.committed with
              tags := conn.committed.tags.map (fun r =>
                if r.id = id0 then { r with category := tag_category }
                else r) }⟩, .ok id0)
        else if tag_category = "content" then
          (⟨conn.committed, conn.committed⟩, .ok id0)
        else
          (⟨conn.committed, conn.committed⟩, .error .integrityError) := by
  have hfilter : conn.committed.tags.filter (fun r =>
      r.id ≠ conn.committed.nextId) = conn.committed.tags :=
    List.filter_eq_self.mpr (List.all_eq_true.mp hwf)
  unfold insert_new_tag DB.insertTag DB.insertAlias
  rw [hcl]
  simp only [hNoTag, Bool.false_eq_true, if_false, hConf, if_true]
  simp only [Conn.rollback, hfilter]

/-- Claim C5 as amended: on the alias-conflict path the owner consulted
is the tag owning the alias row titled with the *normalized tag name*
(not the conflicting alias itself; when no such alias row exists the
integrity error propagates regardless of the conflicting alias's
owner).  If that tag's category is `"content"`, the new tag is deleted
(a no-op after the rollback), the owner's category is updated to the
requested one, and the owner's id is returned; if instead the requested
category is `"content"`, the owner's id is returned with the owner
unchanged; otherwise the integrity error propagates. -/
theorem c5_alias_conflict_resolution_by_name :
    ∀ (conn : Conn) (tag_name tag_category : String) (ta : Option String)
      (cat0 : String) (id0 : Nat),
      conn.pending = conn.committed →
      conn.committed.tags.any (fun r =>
        r.title = replaceChar tag_name '_' ' ' ∧
        r.category = tag_category) = false →
      conn.committed.tagAliases.any (fun a =>
        a.title = deriveAlias tag_name tag_category ta) = true →
      conn.committed.tags.all (fun r =>
        r.id ≠ conn.committed.nextId) = true →
      tagInfoByAliasTitle conn.committed (replaceChar tag_name '_' ' ') =
        some (cat0, id0) →
      ((cat0 = "content" →
        insert_new_tag tag_name tag_category ta conn =
          (⟨conn.committed,
            { conn.committed with
              tags := conn.committed.tags.map (fun r =>
                if r.id = id0 then { r with category := tag_category }
                else r) }⟩, .ok id0)) ∧
      (cat0 ≠ "content" → tag_category = "content" →
        insert_new_tag tag_name tag_category ta conn =
          (⟨conn.committed, conn.committed⟩, .ok id0)) ∧
      (cat0 ≠ "content" → tag_category ≠ "content" →
        insert_new_tag tag_name tag_category ta conn =
          (⟨conn.committed, conn.committed⟩, .error .integrityError))) := by
  intro conn tag_name tag_category ta cat0 id0 hcl hNoTag hConf hwf hinfo
  have h := insert_new_tag_alias_conflict conn tag_name tag_category ta
    hcl hNoTag hConf hwf
  simp only [hinfo] at h
  refine ⟨fun hc => ?_, fun hc ht => ?_, fun hc ht => ?_⟩
  · rwa [if_pos hc] at h
  · rwa [if_neg hc, if_pos ht] at h
  · rwa [if_neg hc, if_neg ht] at h

/-- Witness for `c5_alias_conflict_resolution_by_name`: registering
`("rarity", "artist")` with explicit alias `"rarity"` over the content
stub (tag 7) upgrades the stub's category in the pending view and
returns 7. -/
theorem c5_alias_conflict_resolution_by_name_witness :
    insert_new_tag "rarity" "artist" (some "rarity") connStub =
      (⟨dbStub,
        { dbStub with
          tags := dbStub.tags.map (fun r =>
            if r.id = 7 then { r with category := "artist" } else r) }⟩,
       .ok 7) :=
  (c5_alias_conflict_resolution_by_name connStub "rarity" "artist"
    (some "rarity") "content" 7 rfl rfl rfl rfl rfl).1 rfl

/-- Claim C10: on the alias-conflict recovery paths the function
returns the surviving tag's id without committing — the committed store
is unchanged, the rolled-back `DELETE` of the new tag removes no row
(the pending tag list keeps every committed row), and the stub upgrade
exists only in the pending view — whereas the conflict-free path
commits before returning. -/
theorem c10_recovery_paths_do_not_commit :
    (∀ (conn : Conn) (tag_name tag_category : String) (ta : Option String)
        (cat0 : String) (id0 : Nat),
      conn.pending = conn.committed →
      conn.committed.tags.any (fun r =>
        r.title = replaceChar tag_name '_' ' ' ∧
        r.category = tag_category) = false →
      conn.committed.tagAliases.any (fun a =>
        a.title = deriveAlias tag_name tag_category ta) = true →
      conn.committed.tags.all (fun r =>
        r.id ≠ conn.committed.nextId) = true →
      tagInfoByAliasTitle conn.committed (replaceChar tag_name '_' ' ') =
        some (cat0, id0) →
      ((cat0 = "content" →
        (insert_new_tag tag_name tag_category ta conn).2 = .ok id0 ∧
        (insert_new_tag tag_name tag_category ta conn).1.committed =
          conn.committed ∧
        (insert_new_tag tag_name tag_category ta conn).1.pending.tags =
          conn.committed.tags.map (fun r =>
            if r.id = id0 then { r with category := tag_category }
            else r)) ∧
      (cat0 ≠ "content" → tag_category = "content" →
        (insert_new_tag tag_name tag_category ta conn).2 = .ok id0 ∧
        (insert_new_tag tag_name tag_category ta conn).1.committed =
          conn.committed ∧
        (insert_new_tag tag_name tag_category ta conn).1.pending =
          conn.committed) ∧
      conn.committed.tags.filter (fun r =>
        r.id ≠ conn.committed.nextId) = conn.committed.tags)) ∧
    (∀ (conn : Conn) (tag_name tag_category : String) (ta : Option String),
      conn.pending = conn.committed →
      conn.committed.tags.any (fun r =>
        r.title = replaceChar tag_name '_' ' ' ∧
        r.category = tag_category) = false →
      conn.committed.tagAliases.any (fun a =>
        a.title = deriveAlias tag_name tag_category ta) = false →
      (containsChar (deriveAlias tag_name tag_category ta) ' ' = true →
        replaceChar (deriveAlias tag_name tag_category ta) ' ' '_' ≠
          deriveAlias tag_name tag_category ta ∧
        conn.committed.tagAliases.any (fun a =>
          a.title = replaceChar (deriveAlias tag_name tag_category ta)
            ' ' '_') = false) →
      (containsChar (deriveAlias tag_name tag_category ta) ' ' = false →
        containsChar (deriveAlias tag_name tag_category ta) '_' = true →
        replaceChar (deriveAlias tag_name tag_category ta) '_' ' ' ≠
          deriveAlias tag_name tag_category ta ∧
        conn.committed.tagAliases.any (fun a =>
          a.title = replaceChar (deriveAlias tag_name tag_category ta)
            '_' ' ') = false) →
      (insert_new_tag tag_name tag_category ta conn).1.committed =
        (insert_new_tag tag_name tag_category ta conn).1.pending) := by
  constructor
  · intro conn tag_name tag_category ta cat0 id0 hcl hNoTag hConf hwf hinfo
    have h := insert_new_tag_alias_conflict conn tag_name tag_category ta
      hcl hNoTag hConf hwf
    simp only [hinfo] at h
    have hfilter : conn.committed.tags.filter (fun r =>
        r.id ≠ conn.committed.nextId) = conn.committed.tags :=
      List.filter_eq_self.mpr (List.all_eq_true.mp hwf)
    refine ⟨fun hc => ?_, fun hc ht => ?_, hfilter⟩
    · rw [if_pos hc] at h
      rw [h]
      exact ⟨rfl, rfl, rfl⟩
    · rw [if_neg hc, if_pos ht] at h
      rw [h]
      exact ⟨rfl, rfl, rfl⟩
  · intro conn tag_name tag_category ta hcl hNoTag hA hsp hus
    have h := insert_new_tag_fresh conn tag_name tag_category ta hcl
      hNoTag hA hsp hus
    rw [h]

/-- Witness for `c10_recovery_paths_do_not_commit`: the upgrade of the
content stub (tag 7) by `("rarity", "artist", alias "rarity")` returns
7 with the committed store untouched, and the conflict-free
registration of `("fresh", "set")` on the empty store leaves a clean
(committed) connection. -/
theorem c10_recovery_paths_do_not_commit_witness :
    ((insert_new_tag "rarity" "artist" (some "rarity") connStub).2 =
        .ok 7 ∧
      (insert_new_tag "rarity" "artist"
        (some "rarity") connStub).1.committed = dbStub ∧
      (insert_new_tag "rarity" "artist"
          (some "rarity") connStub).1.pending.tags =
        dbStub.tags.map (fun r =>
          if r.id = 7 then { r with category := "artist" } else r)) ∧
    (insert_new_tag "fresh" "set" none conn0).1.committed =
      (insert_new_tag "fresh" "set" none conn0).1.pending := by
  constructor
  · have h := (c10_recovery_paths_do_not_commit.1 connStub "rarity"
      "artist" (some "rarity") "content" 7 rfl rfl rfl rfl rfl).1 rfl
    exact h
  · exact c10_recovery_paths_do_not_commit.2 conn0 "fresh" "set" none
      rfl rfl rfl (by decide) (by decide)

/-- Claim C6 as amended: on a conflict-free registration whose chosen
alias contains a space (resp. an underscore), the swapped-separator
variant is also inserted and both forms resolve to the new tag's id;
but a uniqueness failure of this secondary insert is **not** ignored —
the integrity error propagates and the registration is left
uncommitted. -/
theorem c6_alias_variant_registration :
    (∀ (conn : Conn) (tag_name tag_category : String) (ta : Option String),
      conn.pending = conn.committed →
      conn.committed.tags.any (fun r =>
        r.title = replaceChar tag_name '_' ' ' ∧
        r.category = tag_category) = false →
      conn.committed.tagAliases.any (fun a =>
        a.title = deriveAlias tag_name tag_category ta) = false →
      containsChar (deriveAlias tag_name tag_category ta) ' ' = true →
      replaceChar (deriveAlias tag_name tag_category ta) ' ' '_' ≠
        deriveAlias tag_name tag_category ta →
      conn.committed.tagAliases.any (fun a =>
        a.title = replaceChar (deriveAlias tag_name tag_category ta)
          ' ' '_') = false →
      (get_tag_id_by_alias (deriveAlias tag_name tag_category ta)
          (insert_new_tag tag_name tag_category ta conn).1.committed =
        some conn.committed.nextId ∧
      get_tag_id_by_alias
          (replaceChar (deriveAlias tag_name tag_category ta) ' ' '_')
          (insert_new_tag tag_name tag_category ta conn).1.committed =
        some conn.committed.nextId)) ∧
    (∀ (conn : Conn) (tag_name tag_category : String) (ta : Option String),
      conn.pending = conn.committed →
      conn.committed.tags.any (fun r =>
        r.title = replaceChar tag_name '_' ' ' ∧
        r.category = tag_category) = false →
      conn.committed.tagAliases.any (fun a =>
        a.title = deriveAlias tag_name tag_category ta) = false →
      containsChar (deriveAlias tag_name tag_category ta) ' ' = false →
      containsChar (deriveAlias tag_name tag_category ta) '_' = true →
      replaceChar (deriveAlias tag_name tag_category ta) '_' ' ' ≠
        deriveAlias tag_name tag_category ta →
      conn.committed.tagAliases.any (fun a =>
        a.title = replaceChar (deriveAlias tag_name tag_category ta)
          '_' ' ') = false →
      (get_tag_id_by_alias (deriveAlias tag_name tag_category ta)
          (insert_new_tag tag_name tag_category ta conn).1.committed =
        some conn.committed.nextId ∧
      get_tag_id_by_alias
          (replaceChar (deriveAlias tag_name tag_category ta) '_' ' ')
          (insert_new_tag tag_name tag_category ta conn).1.committed =
        some conn.committed.nextId)) ∧
    (∀ (conn : Conn) (tag_name tag_category : String) (ta : Option String),
      conn.pending = conn.committed →
      conn.committed.tags.any (fun r =>
        r.title = replaceChar tag_name '_' ' ' ∧
        r.category = tag_category) = false →
      conn.committed.tagAliases.any (fun a =>
        a.title = deriveAlias tag_name tag_category ta) = false →
      containsChar (deriveAlias tag_name tag_category ta) ' ' = true →
      conn.committed.tagAliases.any (fun a =>
        a.title = replaceChar (deriveAlias tag_name tag_category ta)
          ' ' '_') = true →
      ((insert_new_tag tag_name tag_category ta conn).2 =
          .error .integrityError ∧
        (insert_new_tag tag_name tag_category ta conn).1.committed =
          conn.committed)) := by
  refine ⟨?_, ?_, ?_⟩
  · intro conn tag_name tag_category ta hcl hNoTag hA hc1 hne hA2
    have h := insert_new_tag_fresh conn tag_name tag_category ta hcl
      hNoTag hA (fun _ => ⟨hne, hA2⟩)
      (fun hf _ => absurd hc1 (by simp [hf]))
    rw [h]
    have hAnone : conn.committed.tagAliases.find? (fun a =>
        a.title = deriveAlias tag_name tag_category ta) = none :=
      List.find?_eq_none.mpr (List.any_eq_false.mp hA)
    have hA2none : conn.committed.tagAliases.find? (fun a =>
        a.title = replaceChar (deriveAlias tag_name tag_category ta)
          ' ' '_') = none :=
      List.find?_eq_none.mpr (List.any_eq_false.mp hA2)
    constructor
    · show get_tag_id_by_alias _ (freshTagDB _ _ _ _) = _
      unfold get_tag_id_by_alias freshTagDB
      simp only [hc1, if_true]
      rw [List.find?_append, List.find?_append, hAnone]
      simp
    · show get_tag_id_by_alias _ (freshTagDB _ _ _ _) = _
      unfold get_tag_id_by_alias freshTagDB
      simp only [hc1, if_true]
      rw [List.find?_append, List.find?_append, hA2none]
      simp [Ne.symm hne]
  · intro conn tag_name tag_category ta hcl hNoTag hA hc1 hc2 hne hA2
    have h := insert_new_tag_fresh conn tag_name tag_category ta hcl
      hNoTag hA (fun ht => absurd ht (by simp [hc1]))
      (fun _ _ => ⟨hne, hA2⟩)
    rw [h]
    have hAnone : conn.committed.tagAliases.find? (fun a =>
        a.title = deriveAlias tag_name tag_category ta) = none :=
      List.find?_eq_none.mpr (List.any_eq_false.mp hA)
    have hA2none : conn.committed.tagAliases.find? (fun a =>
        a.title = replaceChar (deriveAlias tag_name tag_category ta)
          '_' ' ') = none :=
      List.find?_eq_none.mpr (List.any_eq_false.mp hA2)
    constructor
    · show get_tag_id_by_alias _ (freshTagDB _ _ _ _) = _
      unfold get_tag_id_by_alias freshTagDB
      simp only [hc1, Bool.false_eq_true, if_false, hc2, if_true]
      rw [List.find?_append, List.find?_append, hAnone]
      simp
    · show get_tag_id_by_alias _ (freshTagDB _ _ _ _) = _
      unfold get_tag_id_by_alias freshTagDB
      simp only [hc1, Bool.false_eq_true, if_false, hc2, if_true]
      rw [List.find?_append, List.find?_append, hA2none]
      simp [Ne.symm hne]
  · intro conn tag_name tag_category ta hcl hNoTag hA hc1 hA2
    unfold insert_new_tag DB.insertTag DB.insertAlias
    rw [hcl]
    simp only [hNoTag, Bool.false_eq_true, if_false, hA, hc1, if_true,
      List.any_append, hA2, Bool.true_or, if_true]
    exact ⟨trivial, trivial⟩

/-- Witness for `c6_alias_variant_registration`: registering
`("mytag", "set")` with alias `"my tag"` on the empty store makes both
`"my tag"` and `"my_tag"` resolve to id 1; the same registration over
the store already holding the alias `"my_tag"` fails with the
propagated integrity error and commits nothing. -/
theorem c6_alias_variant_registration_witness :
    (get_tag_id_by_alias "my tag"
        (insert_new_tag "mytag" "set" (some "my tag") conn0).1.committed =
      some 1 ∧
    get_tag_id_by_alias "my_tag"
        (insert_new_tag "mytag" "set" (some "my tag") conn0).1.committed =
      some 1) ∧
    ((insert_new_tag "mytag" "set" (some "my tag")
        connVariantTaken).2 = .error .integrityError ∧
      (insert_new_tag "mytag" "set" (some "my tag")
        connVariantTaken).1.committed = dbVariantTaken) :=
  ⟨c6_alias_variant_registration.1 conn0 "mytag" "set" (some "my tag")
      rfl rfl rfl rfl (by decide) rfl,
    c6_alias_variant_registration.2.2 connVariantTaken "mytag" "set"
      (some "my tag") rfl rfl rfl rfl rfl⟩

/-!
## Claim theorems: the merge engine
-/

/-- Closed form of the `UPDATE` loop over a set of content ids: one map
over the link table. -/
lemma foldl_resetLinkStep (s f : Nat) :
    ∀ (S : List Nat) (L : List LinkRow),
      S.foldl (resetLinkStep s f) L =
        L.map (fun r => if r.content_id ∈ S ∧ r.tag_id = f then
          ⟨r.content_id, s⟩ else r) := by
  intro S
  induction S with
  | nil =>
    intro L
    simp
  | cons c S ih =>
    intro L
    rw [List.foldl_cons, ih]
    unfold resetLinkStep
    rw [List.map_map]
    refine List.map_congr_left ?_
    intro r _
    simp only [Function.comp_apply]
    by_cases h1 : r.content_id = c ∧ r.tag_id = f
    · rw [if_pos h1,
        if_pos (show r.content_id ∈ c :: S ∧ r.tag_id = f from
          ⟨h1.1 ▸ List.mem_cons_self c S, h1.2⟩)]
      dsimp only
      split_ifs <;> rfl
    · rw [if_neg h1]
      by_cases h2 : r.content_id ∈ S ∧ r.tag_id = f
      · rw [if_pos h2, if_pos ⟨List.mem_cons_of_mem c h2.1, h2.2⟩]
      · rw [if_neg h2, if_neg ?_]
        rintro ⟨hmem, hf⟩
        rcases List.mem_cons.mp hmem with he | hm
        · exact h1 ⟨he, hf⟩
        · exact h2 ⟨hm, hf⟩

/-- Closed form of the `DELETE` loop over a set of content ids: one
filter over the link table. -/
lemma foldl_deleteLinkStep (f : Nat) :
    ∀ (S : List Nat) (L : List LinkRow),
      S.foldl (deleteLinkStep f) L =
        L.filter (fun r => ¬(r.content_id ∈ S ∧ r.tag_id = f)) := by
  intro S
  induction S with
  | nil =>
    intro L
    simp
  | cons c S ih =>
    intro L
    rw [List.foldl_cons, ih]
    unfold deleteLinkStep
    rw [List.filter_filter]
    refine List.filter_congr ?_
    intro r _
    rw [← Bool.decide_and, decide_eq_decide]
    constructor
    · rintro ⟨hS, hc⟩ ⟨hmem, hf⟩
      rcases List.mem_cons.mp hmem with he | hm
      · exact hc ⟨he, hf⟩
      · exact hS ⟨hm, hf⟩
    · intro h
      exact ⟨fun hq => h ⟨List.mem_cons_of_mem c hq.1, hq.2⟩,
        fun hq => h ⟨hq.1 ▸ List.mem_cons_self c S, hq.2⟩⟩

/-- The relink stage leaves the tag table untouched. -/
lemma mergeRelink_tags (f s : Nat) (db : DB) :
    (mergeRelink f s db).tags = db.tags := rfl

/-- The relink stage reassigns the aliases of the first tag. -/
lemma mergeRelink_tagAliases (f s : Nat) (db : DB) :
    (mergeRelink f s db).tagAliases = db.tagAliases.map (fun a =>
      if a.tag_id = f then { a with tag_id := s } else a) := rfl

/-- Closed form of the relink stage on the link table. -/
lemma mergeRelink_links (f s : Nat) (db : DB) :
    (mergeRelink f s db).links =
      (db.links.map (fun r =>
        if r.content_id ∈ ((get_content_ids_by_tag_id f db).dedup.filter
              (fun c => c ∉ (get_content_ids_by_tag_id s db).dedup)) ∧
            r.tag_id = f then ⟨r.content_id, s⟩ else r)).filter
        (fun r => ¬(r.content_id ∈
            ((get_content_ids_by_tag_id f db).dedup.filter
              (fun c => c ∈ (get_content_ids_by_tag_id s db).dedup)) ∧
          r.tag_id = f)) := by
  simp only [mergeRelink]
  rw [foldl_resetLinkStep, foldl_deleteLinkStep]

/-- Resetting the parent of one id leaves `find?`-by-id results intact
up to the same parent reset. -/
lemma find?_id_map_parentReset (l : List TagRow) (k t : Nat) :
    (l.map (fun r => if r.id = t then { r with parent := none }
      else r)).find? (fun r => r.id = k) =
    (l.find? (fun r => r.id = k)).map (fun r =>
      if r.id = t then { r with parent := none } else r) := by
  rw [List.find?_map]
  have hp : ((fun r : TagRow => decide (r.id = k)) ∘ (fun r : TagRow =>
      if r.id = t then { r with parent := none } else r)) =
      (fun r : TagRow => decide (r.id = k)) := by
    funext r
    by_cases h : r.id = t
    · simp [h]
    · simp [h]
  rw [hp]

/-- With pairwise-distinct tag ids, the row found by id is the only row
with that id. -/
lemma unique_row_of_idsNodup (l : List TagRow) (k : Nat) (r : TagRow)
    (hnodup : (l.map (fun x => x.id)).Nodup)
    (hfind : l.find? (fun x => x.id = k) = some r) :
    ∀ x ∈ l, x.id = k → x = r := by
  intro x hx hxk
  have hr := List.mem_of_find?_eq_some hfind
  have hrk : r.id = k := by simpa using List.find?_some hfind
  exact List.inj_on_of_nodup_map hnodup hx hr (by rw [hxk, hrk])

/-- On a database where both tags are found, the parent-guard and
delete stage succeeds, leaves links and aliases untouched, and removes
every row carrying the first id. -/
lemma mergeParentsAndDelete_ok (f s : Nat) (db : DB) (r2 r1 : TagRow)
    (hfs : f ≠ s)
    (h2 : db.tags.find? (fun r => r.id = s) = some r2)
    (h1 : db.tags.find? (fun r => r.id = f) = some r1) :
    (mergeParentsAndDelete f s db).2 = .ok () ∧
    (mergeParentsAndDelete f s db).1.links = db.links ∧
    (mergeParentsAndDelete f s db).1.tagAliases = db.tagAliases ∧
    (∀ r ∈ (mergeParentsAndDelete f s db).1.tags, r.id ≠ f) ∧
    (mergeParentsAndDelete f s db).1.nextId = db.nextId := by
  have hr1f : r1.id = f := by simpa using List.find?_some h1
  have key : ∃ tg : List TagRow, mergeParentsAndDelete f s db =
      ({ db with tags := tg.filter (fun r => r.id ≠ f) }, .ok ()) := by
    unfold mergeParentsAndDelete
    rw [h2]
    dsimp only
    by_cases hp2 : r2.parent = some f
    · rw [if_pos hp2, find?_id_map_parentReset, h1]
      simp only [Option.map_some']
      have hg : (if r1.id = s then
          (⟨r1.id, r1.title, r1.category, none⟩ : TagRow)
          else r1) = r1 := if_neg (by rw [hr1f]; exact hfs)
      rw [hg]
      by_cases hp1 : r1.parent = some s
      · rw [if_pos hp1]
        exact ⟨_, rfl⟩
      · rw [if_neg hp1]
        exact ⟨_, rfl⟩
    · rw [if_neg hp2, h1]
      dsimp only
      by_cases hp1 : r1.parent = some s
      · rw [if_pos hp1]
        exact ⟨_, rfl⟩
      · rw [if_neg hp1]
        exact ⟨_, rfl⟩
  obtain ⟨tg, heq⟩ := key
  rw [heq]
  refine ⟨rfl, rfl, rfl, ?_, rfl⟩
  intro r hr
  simpa using (List.mem_filter.mp hr).2

/-- `content_id` membership in the (deduplicated) result of
`get_content_ids_by_tag_id` is exactly link-row membership. -/
lemma mem_content_ids (t : Nat) (db : DB) (c : Nat) :
    c ∈ (get_content_ids_by_tag_id t db).dedup ↔
      LinkRow.mk c t ∈ db.links := by
  unfold get_content_ids_by_tag_id
  rw [List.mem_dedup]
  constructor
  · intro h
    rcases List.mem_map.mp h with ⟨r, hr, hc⟩
    rcases List.mem_filter.mp hr with ⟨hrl, hrt⟩
    have hrt' : r.tag_id = t := by simpa using hrt
    have hre : r = ⟨c, t⟩ := by
      cases r
      simp_all
    rwa [hre] at hrl
  · intro h
    exact List.mem_map.mpr ⟨⟨c, t⟩, List.mem_filter.mpr ⟨h, by simp⟩, rfl⟩

/-- Claim C4: merge postcondition.  After a successful
`merge_tags loser winner` on a clean connection over a store with
duplicate-free links where both tags exist: no link row references the
loser; every content linked to the loser but not the winner is linked
to the winner; no content has a duplicate `(content, winner)` link;
every alias previously pointing at the loser now points at the winner
and none points at the loser; and the loser tag row is gone. -/
theorem c4_merge_postcondition :
    ∀ (conn : Conn) (loser winner : Nat) (r2 r1 : TagRow),
      conn.pending = conn.committed →
      loser ≠ winner →
      conn.committed.links.Nodup →
      conn.committed.tags.find? (fun r => r.id = winner) = some r2 →
      conn.committed.tags.find? (fun r => r.id = loser) = some r1 →
      ((merge_tags loser winner conn).2 = .ok () ∧
      (∀ r ∈ (merge_tags loser winner conn).1.committed.links,
        r.tag_id ≠ loser) ∧
      (∀ c : Nat, LinkRow.mk c loser ∈ conn.committed.links →
        LinkRow.mk c winner ∉ conn.committed.links →
        LinkRow.mk c winner ∈
          (merge_tags loser winner conn).1.committed.links) ∧
      (∀ c : Nat,
        (merge_tags loser winner conn).1.committed.links.count
          (LinkRow.mk c winner) ≤ 1) ∧
      (∀ a ∈ conn.committed.tagAliases, a.tag_id = loser →
        AliasRow.mk winner a.title ∈
          (merge_tags loser winner conn).1.committed.tagAliases) ∧
      (∀ a ∈ (merge_tags loser winner conn).1.committed.tagAliases,
        a.tag_id ≠ loser) ∧
      (∀ r ∈ (merge_tags loser winner conn).1.committed.tags,
        r.id ≠ loser)) := by
  intro conn l w r2 r1 hcl hlw hnd h2 h1
  obtain ⟨cdb, pdb⟩ := conn
  replace hcl : pdb = cdb := hcl
  subst hcl
  simp only at h2 h1 hnd ⊢
  have h2' : (mergeRelink l w pdb).tags.find? (fun r => r.id = w) =
      some r2 := by rw [mergeRelink_tags]; exact h2
  have h1' : (mergeRelink l w pdb).tags.find? (fun r => r.id = l) =
      some r1 := by rw [mergeRelink_tags]; exact h1
  obtain ⟨hok, hlinks, hals, htagf, -⟩ :=
    mergeParentsAndDelete_ok l w (mergeRelink l w pdb) r2 r1 hlw h2' h1'
  have hmerge : merge_tags l w (⟨pdb, pdb⟩ : Conn) =
      (Conn.commit ⟨pdb,
        (mergeParentsAndDelete l w (mergeRelink l w pdb)).1⟩, .ok ()) := by
    unfold merge_tags
    dsimp only
    rcases hres : mergeParentsAndDelete l w (mergeRelink l w pdb)
      with ⟨db', st⟩
    rw [hres] at hok
    cases st with
    | error e => exact absurd hok (by simp)
    | ok u =>
      cases u
      rfl
  rw [hmerge]
  simp only [Conn.commit]
  rw [hlinks, hals, mergeRelink_links, mergeRelink_tagAliases]
  refine ⟨trivial, ?_, ?_, ?_, ?_, ?_, htagf⟩
  · -- no link references the loser
    intro r hr
    rcases List.mem_filter.mp hr with ⟨hmap, hD⟩
    rcases List.mem_map.mp hmap with ⟨r0, hr0, hUr0⟩
    intro htag
    rw [decide_eq_true_eq] at hD
    by_cases hcond : r0.content_id ∈
        ((get_content_ids_by_tag_id l pdb).dedup.filter
          (fun c => c ∉ (get_content_ids_by_tag_id w pdb).dedup)) ∧
        r0.tag_id = l
    · rw [if_pos hcond] at hUr0
      rw [← hUr0] at htag
      exact hlw htag.symm
    · rw [if_neg hcond] at hUr0
      subst hUr0
      have hfc : r0.content_id ∈ (get_content_ids_by_tag_id l pdb).dedup :=
        (mem_content_ids l pdb r0.content_id).mpr
          (by cases r0; simp_all)
      by_cases hsec : r0.content_id ∈ (get_content_ids_by_tag_id w pdb).dedup
      · exact hD ⟨List.mem_filter.mpr ⟨hfc, by simpa using hsec⟩, htag⟩
      · exact hcond ⟨List.mem_filter.mpr ⟨hfc, by simpa using hsec⟩, htag⟩
  · -- loser-only content is relinked to the winner
    intro c hcl' hcw
    have hcreset : c ∈ ((get_content_ids_by_tag_id l pdb).dedup.filter
        (fun x => x ∉ (get_content_ids_by_tag_id w pdb).dedup)) :=
      List.mem_filter.mpr ⟨(mem_content_ids l pdb c).mpr hcl',
        by simpa using (fun h => hcw ((mem_content_ids w pdb c).mp h))⟩
    refine List.mem_filter.mpr ⟨List.mem_map.mpr ⟨⟨c, l⟩, hcl', ?_⟩, ?_⟩
    · rw [if_pos ⟨hcreset, rfl⟩]
    · rw [decide_eq_true_eq]
      rintro ⟨-, hwl⟩
      exact hlw hwl.symm
  · -- no duplicate (content, winner) link
    intro c
    have hnodup2 : ((pdb.links.map (fun r =>
        if r.content_id ∈ ((get_content_ids_by_tag_id l pdb).dedup.filter
              (fun x => x ∉ (get_content_ids_by_tag_id w pdb).dedup)) ∧
            r.tag_id = l then (⟨r.content_id, w⟩ : LinkRow)
        else r)).filter
        (fun r => ¬(r.content_id ∈
            ((get_content_ids_by_tag_id l pdb).dedup.filter
              (fun x => x ∈ (get_content_ids_by_tag_id w pdb).dedup)) ∧
          r.tag_id = l))).Nodup := by
      refine List.Nodup.filter _ (List.Nodup.map_on ?_ hnd)
      intro x hx y hy hxy
      by_cases hcx : x.content_id ∈
          ((get_content_ids_by_tag_id l pdb).dedup.filter
            (fun z => z ∉ (get_content_ids_by_tag_id w pdb).dedup)) ∧
          x.tag_id = l
      · rw [if_pos hcx] at hxy
        have hxw : LinkRow.mk x.content_id w ∉ pdb.links := by
          have := (List.mem_filter.mp hcx.1).2
          rw [decide_eq_true_eq] at this
          exact fun hmem => this ((mem_content_ids w pdb _).mpr hmem)
        by_cases hcy : y.content_id ∈
            ((get_content_ids_by_tag_id l pdb).dedup.filter
              (fun z => z ∉ (get_content_ids_by_tag_id w pdb).dedup)) ∧
            y.tag_id = l
        · rw [if_pos hcy] at hxy
          cases x; cases y
          simp_all
        · rw [if_neg hcy] at hxy
          exact absurd (show (⟨x.content_id, w⟩ : LinkRow) ∈ pdb.links by
            rw [hxy]; exact hy) hxw
      · rw [if_neg hcx] at hxy
        by_cases hcy : y.content_id ∈
            ((get_content_ids_by_tag_id l pdb).dedup.filter
              (fun z => z ∉ (get_content_ids_by_tag_id w pdb).dedup)) ∧
            y.tag_id = l
        · rw [if_pos hcy] at hxy
          have hyw : LinkRow.mk y.content_id w ∉ pdb.links := by
            have hmf := (List.mem_filter.mp hcy.1).2
            rw [decide_eq_true_eq] at hmf
            exact fun hmem => hmf ((mem_content_ids w pdb _).mpr hmem)
          exact absurd (show (⟨y.content_id, w⟩ : LinkRow) ∈ pdb.links by
            rw [← hxy]; exact hx) hyw
        · rw [if_neg hcy] at hxy
          exact hxy
    exact List.nodup_iff_count_le_one.mp hnodup2 (LinkRow.mk c w)
  · -- aliases of the loser now point at the winner
    intro a ha hal
    refine List.mem_map.mpr ⟨a, ha, ?_⟩
    rw [if_pos hal]
  · -- no alias points at the loser
    intro a ha
    rcases List.mem_map.mp ha with ⟨a0, ha0, haeq⟩
    intro htag
    by_cases hc : a0.tag_id = l
    · rw [if_pos hc] at haeq
      rw [← haeq] at htag
      exact hlw htag.symm
    · rw [if_neg hc] at haeq
      rw [← haeq] at htag
      exact hc htag

/-- Witness for `c4_merge_postcondition`: merging tag 1 into tag 2 on
the dedicated example store succeeds. -/
theorem c4_merge_postcondition_witness :
    (merge_tags 1 2 connMergeEx).2 = .ok () :=
  (c4_merge_postcondition connMergeEx 1 2 ⟨2, "b", "artist", some 1⟩
    ⟨1, "a", "artist", none⟩ rfl (by decide) (by decide) rfl rfl).1

/-- The relink stage's link table, rewritten against the original link
table only: links of the first tag are retagged to the second unless
the second already links that content, and the remaining first-tag
links are dropped. -/
lemma relink_links_eq (f s : Nat) (db : DB) (hfs : f ≠ s) :
    (mergeRelink f s db).links =
      (db.links.map (fun r =>
        if r.tag_id = f ∧ LinkRow.mk r.content_id s ∉ db.links then
          ⟨r.content_id, s⟩ else r)).filter
        (fun r => r.tag_id ≠ f) := by
  rw [mergeRelink_links]
  have hmap : db.links.map (fun r =>
      if r.content_id ∈ ((get_content_ids_by_tag_id f db).dedup.filter
            (fun c => c ∉ (get_content_ids_by_tag_id s db).dedup)) ∧
          r.tag_id = f then (⟨r.content_id, s⟩ : LinkRow) else r) =
      db.links.map (fun r =>
        if r.tag_id = f ∧ LinkRow.mk r.content_id s ∉ db.links then
          ⟨r.content_id, s⟩ else r) := by
    refine List.map_congr_left ?_
    intro r hr
    by_cases ht : r.tag_id = f
    · have hrf : LinkRow.mk r.content_id f ∈ db.links := by
        cases r; simp_all
      by_cases hs : LinkRow.mk r.content_id s ∈ db.links
      · rw [if_neg ?_, if_neg ?_]
        · rintro ⟨-, hns⟩; exact hns hs
        · rintro ⟨hmem, -⟩
          have := (List.mem_filter.mp hmem).2
          rw [decide_eq_true_eq] at this
          exact this ((mem_content_ids s db r.content_id).mpr hs)
      · rw [if_pos ?_, if_pos ⟨ht, hs⟩]
        exact ⟨List.mem_filter.mpr ⟨(mem_content_ids f db _).mpr hrf,
          by simpa using (fun h => hs ((mem_content_ids s db _).mp h))⟩, ht⟩
    · rw [if_neg (fun h => ht h.2), if_neg (fun h => ht h.1)]
  rw [hmap]
  refine List.filter_congr ?_
  intro x hx
  rcases List.mem_map.mp hx with ⟨r, hr, hxeq⟩
  rw [decide_eq_decide]
  by_cases ht : x.tag_id = f
  · simp only [ht, not_true, iff_false, not_not, ne_eq]
    by_cases hcond : r.tag_id = f ∧ LinkRow.mk r.content_id s ∉ db.links
    · rw [if_pos hcond] at hxeq
      exfalso
      rw [← hxeq] at ht
      exact hfs ht.symm
    · rw [if_neg hcond] at hxeq
      subst hxeq
      rw [not_and, not_not] at hcond
      have hs := hcond ht
      refine ⟨List.mem_filter.mpr ⟨(mem_content_ids f db _).mpr ?_,
        by simpa using (mem_content_ids s db _).mpr hs⟩, trivial⟩
      cases r
      simp_all
  · simp only [ne_eq, ht, not_false_iff, iff_true]
    rintro ⟨-, htf⟩
    exact htf

/-- The tag table after the parent-guard and delete stage, written as
one per-row map (guard each row by its own id and parent) followed by
the delete filter; needs pairwise-distinct ids so that the staged
find?-driven guards coincide with the per-row guards. -/
lemma parents_tags_eq (f s : Nat) (db : DB) (r2 r1 : TagRow)
    (hfs : f ≠ s)
    (hnodup : (db.tags.map (fun x => x.id)).Nodup)
    (h2 : db.tags.find? (fun r => r.id = s) = some r2)
    (h1 : db.tags.find? (fun r => r.id = f) = some r1) :
    (mergeParentsAndDelete f s db).1.tags =
      (db.tags.map (fun r =>
        if r.id = s ∧ r.parent = some f then { r with parent := none }
        else if r.id = f ∧ r.parent = some s then { r with parent := none }
        else r)).filter (fun r => r.id ≠ f) := by
  have hr2s : r2.id = s := by simpa using List.find?_some h2
  have hr1f : r1.id = f := by simpa using List.find?_some h1
  have hu2 := unique_row_of_idsNodup db.tags s r2 hnodup h2
  have hu1 := unique_row_of_idsNodup db.tags f r1 hnodup h1
  have hsf : ¬(s = f) := fun h => hfs h.symm
  unfold mergeParentsAndDelete
  rw [h2]
  dsimp only
  by_cases hp2 : r2.parent = some f
  · rw [if_pos hp2, find?_id_map_parentReset, h1]
    simp only [Option.map_some']
    have hg : (if r1.id = s then
        (⟨r1.id, r1.title, r1.category, none⟩ : TagRow)
        else r1) = r1 := if_neg (by rw [hr1f]; exact hfs)
    rw [hg]
    by_cases hp1 : r1.parent = some s
    · rw [if_pos hp1]
      dsimp only
      congr 1
      rw [List.map_map]
      refine List.map_congr_left ?_
      intro x hx
      simp only [Function.comp_apply]
      by_cases hxs : x.id = s
      · have hxp : x.parent = some f := by
          rw [hu2 x hx hxs]; exact hp2
        simp [hxs, hxp, hsf, hfs]
      · by_cases hxf : x.id = f
        · have hxp : x.parent = some s := by
            rw [hu1 x hx hxf]; exact hp1
          simp [hxs, hxf, hxp, hfs, hsf]
        · simp [hxs, hxf, hfs, hsf]
    · rw [if_neg hp1]
      dsimp only
      congr 1
      refine List.map_congr_left ?_
      intro x hx
      by_cases hxs : x.id = s
      · have hxp : x.parent = some f := by
          rw [hu2 x hx hxs]; exact hp2
        simp [hxs, hxp, hsf, hfs]
      · by_cases hxf : x.id = f
        · have hxp : ¬(x.parent = some s) := by
            rw [hu1 x hx hxf]; exact hp1
          simp [hxs, hxf, hxp, hfs, hsf]
        · simp [hxs, hxf, hfs, hsf]
  · rw [if_neg hp2, h1]
    dsimp only
    by_cases hp1 : r1.parent = some s
    · rw [if_pos hp1]
      dsimp only
      congr 1
      refine List.map_congr_left ?_
      intro x hx
      by_cases hxf : x.id = f
      · have hxp : x.parent = some s := by
          rw [hu1 x hx hxf]; exact hp1
        have hxs : ¬(x.id = s) := by rw [hxf]; exact hfs
        simp [hxs, hxf, hxp, hfs, hsf]
      · by_cases hxs : x.id = s
        · have hxp : ¬(x.parent = some f) := by
            rw [hu2 x hx hxs]; exact hp2
          simp [hxs, hxf, hxp, hfs, hsf]
        · simp [hxs, hxf, hfs, hsf]
    · rw [if_neg hp1]
      congr 1
      have hid : db.tags.map (fun r =>
          if r.id = s ∧ r.parent = some f then { r with parent := none }
          else if r.id = f ∧ r.parent = some s then
            { r with parent := none }
          else r) = db.tags.map (fun a => a) := by
        refine List.map_congr_left ?_
        intro x hx
        by_cases hxs : x.id = s
        · have hxp : ¬(x.parent = some f) := by
            rw [hu2 x hx hxs]; exact hp2
          simp [hxs, hxp, hsf, hfs]
        · by_cases hxf : x.id = f
          · have hxp : ¬(x.parent = some s) := by
              rw [hu1 x hx hxf]; exact hp1
            simp [hxs, hxf, hxp, hfs, hsf]
          · simp [hxs, hxf, hfs, hsf]
      rw [hid, List.map_id']

/-- A successful parent-guard and delete stage implies both tags were
found. -/
lemma mergeParentsAndDelete_ok_inv (f s : Nat) (db : DB)
    (h : (mergeParentsAndDelete f s db).2 = .ok ()) :
    (∃ r2, db.tags.find? (fun r => r.id = s) = some r2) ∧
    (∃ r1, db.tags.find? (fun r => r.id = f) = some r1) := by
  unfold mergeParentsAndDelete at h
  cases hf2 : db.tags.find? (fun r => r.id = s) with
  | none =>
    rw [hf2] at h
    exact absurd h (by simp)
  | some r2 =>
    rw [hf2] at h
    dsimp only at h
    refine ⟨⟨r2, rfl⟩, ?_⟩
    by_cases hp2 : r2.parent = some f
    · rw [if_pos hp2, find?_id_map_parentReset] at h
      cases hf1 : db.tags.find? (fun r => r.id = f) with
      | none =>
        rw [hf1] at h
        exact absurd h (by simp)
      | some r1 => exact ⟨r1, rfl⟩
    · rw [if_neg hp2] at h
      cases hf1 : db.tags.find? (fun r => r.id = f) with
      | none =>
        rw [hf1] at h
        exact absurd h (by simp)
      | some r1 => exact ⟨r1, rfl⟩

/-- Claim C7: merge atomicity.  Every mutating statement of
`merge_tags` runs on the pending view and the single final
`connection.commit()` publishes it: if any step raises before the
commit, the committed store is exactly the one before the call; on
success the commit publishes the pending view, which (for distinct tags
over a primary-keyed tag table) equals all merge effects applied to the
starting state at once. -/
theorem c7_merge_atomicity :
    ∀ (first_tag_id second_tag_id : Nat) (conn : Conn),
      (∀ e, (merge_tags first_tag_id second_tag_id conn).2 = .error e →
        (merge_tags first_tag_id second_tag_id conn).1.committed =
          conn.committed) ∧
      ((merge_tags first_tag_id second_tag_id conn).2 = .ok () →
        ((merge_tags first_tag_id second_tag_id conn).1.committed =
          (merge_tags first_tag_id second_tag_id conn).1.pending ∧
        (first_tag_id ≠ second_tag_id →
          (conn.pending.tags.map (fun x => x.id)).Nodup →
          (merge_tags first_tag_id second_tag_id conn).1.committed =
            mergeEffects first_tag_id second_tag_id conn.pending))) := by
  intro f s conn
  rcases hres : mergeParentsAndDelete f s (mergeRelink f s conn.pending)
    with ⟨db', st⟩
  have hm : merge_tags f s conn =
      match (db', st) with
      | (db5, .ok ()) =>
        (Conn.commit { conn with pending := db5 }, .ok ())
      | (dbe, .error e) => ({ conn with pending := dbe }, .error e) := by
    unfold merge_tags
    dsimp only
    rw [hres]
  cases st with
  | error e0 =>
    rw [hm]
    exact ⟨fun e he => rfl, fun hok => absurd hok (by simp)⟩
  | ok u =>
    cases u
    rw [hm]
    refine ⟨fun e he => absurd he (by simp), fun _ => ⟨rfl, ?_⟩⟩
    intro hfs hnodup
    have hok2 : (mergeParentsAndDelete f s
        (mergeRelink f s conn.pending)).2 = .ok () := by
      rw [hres]
    obtain ⟨⟨r2, hf2⟩, ⟨r1, hf1⟩⟩ :=
      mergeParentsAndDelete_ok_inv f s _ hok2
    have hnodup' : ((mergeRelink f s conn.pending).tags.map
        (fun x => x.id)).Nodup := by
      rw [mergeRelink_tags]; exact hnodup
    have htags := parents_tags_eq f s (mergeRelink f s conn.pending)
      r2 r1 hfs hnodup' hf2 hf1
    obtain ⟨-, hlinks, hals, -, hnext⟩ :=
      mergeParentsAndDelete_ok f s (mergeRelink f s conn.pending)
        r2 r1 hfs hf2 hf1
    rw [hres] at htags hlinks hals hnext
    show db' = mergeEffects f s conn.pending
    rw [relink_links_eq f s conn.pending hfs] at hlinks
    rw [mergeRelink_tagAliases] at hals
    rw [mergeRelink_tags] at htags
    have hnext' : db'.nextId = conn.pending.nextId := hnext
    obtain ⟨t, a, li, n⟩ := db'
    dsimp only at htags hlinks hals hnext'
    unfold mergeEffects
    rw [htags, hals, hlinks, hnext']

/-- Witness for `c7_merge_atomicity`: merging the missing tag 5 leaves
the committed example store untouched, while the successful merge of
tag 1 into tag 2 commits its pending view, which equals the all-at-once
merge effects. -/
theorem c7_merge_atomicity_witness :
    (merge_tags 5 2 connMergeEx).1.committed = connMergeEx.committed ∧
    (merge_tags 1 2 connMergeEx).1.committed =
      (merge_tags 1 2 connMergeEx).1.pending ∧
    (merge_tags 1 2 connMergeEx).1.committed =
      mergeEffects 1 2 connMergeEx.pending :=
  ⟨(c7_merge_atomicity 5 2 connMergeEx).1
      (.appError "Tag with ID 5 not found") rfl,
    ((c7_merge_atomicity 1 2 connMergeEx).2 rfl).1,
    ((c7_merge_atomicity 1 2 connMergeEx).2 rfl).2 (by decide) (by decide)⟩

end Medialib

